import Mathlib

/-!
Verification of the buffering-and-rotation core of the Spresense GNSS tracker
sketch (gnss_tracker.ino) and its persistent session-index counter.

Byte buffers of the C code (char arrays holding NUL-terminated text) are
embedded as `List Char`; integer arithmetic of the sketch stays comfortably
inside machine range, so `Nat`/`Int` are used without explicit wraparound.
-/

namespace GnssTracker

/-- Byte strings of the C code (contents of char buffers and files). -/
abbrev Bytes := List Char

/-! ### Compile-time constants (gnss_tracker.ino lines 36-52) -/

/-- INDEX_FILE_SIZE: size of the index-file read buffer. -/
def INDEX_FILE_SIZE : Nat := 16

/-- NMEA_BUFFER_SIZE: one NMEA line buffer. -/
def NMEA_BUFFER_SIZE : Nat := 128

/-- POSITIONING_INTERVAL in seconds. -/
def POSITIONING_INTERVAL : Nat := 5

/-- DATA_WRITE_INTERVAL in seconds. -/
def DATA_WRITE_INTERVAL : Nat := 60

/-- NUMBER_OF_CACHE = DATA_WRITE_INTERVAL / POSITIONING_INTERVAL = 12. -/
def NUMBER_OF_CACHE : Nat := DATA_WRITE_INTERVAL / POSITIONING_INTERVAL

/-- MEMORY_BUFFER_SIZE = NMEA_BUFFER_SIZE * NUMBER_OF_CACHE = 1536. -/
def MEMORY_BUFFER_SIZE : Nat := NMEA_BUFFER_SIZE * NUMBER_OF_CACHE

/-! ### Decimal text encoding of the index record

`GetFileNumber` stores the session counter as zero-padded decimal ASCII text
(snprintf "%08d") and reads it back with `strtoul(.., 10)`. -/

/-- Accumulator loop of strtoul base 10: consume leading decimal digits,
stop at the first non-digit. -/
def strtoulGo : Bytes → Nat → Nat
  | [], acc => acc
  | c :: cs, acc => if c.isDigit then strtoulGo cs (10 * acc + (c.toNat - 48)) else acc

/-- strtoul(s, NULL, 10) on the stored record text. -/
def strtoulDec (cs : Bytes) : Nat := strtoulGo cs 0

/-- Decimal digits of a natural number, most significant first
(empty for 0, as used inside the %08d model where padding supplies zeros). -/
def natDigits : Nat → Bytes
  | 0 => []
  | n + 1 => natDigits ((n + 1) / 10) ++ [Char.ofNat (48 + (n + 1) % 10)]
decreasing_by exact Nat.div_lt_self (Nat.succ_pos n) (by decide)

/-- snprintf(buf, 16, "%08d", n): decimal digits of n, left-padded with zeros
to at least eight characters. -/
def pad8 (n : Nat) : Bytes :=
  List.replicate (8 - (natDigits n).length) '0' ++ natDigits n

/-! ### Round-trip lemmas for the decimal encoding -/

theorem digitChar_isDigit (r : Nat) (h : r < 10) :
    (Char.ofNat (48 + r)).isDigit = true := by
  interval_cases r <;> decide

theorem digitChar_toNat (r : Nat) (h : r < 10) :
    (Char.ofNat (48 + r)).toNat = 48 + r := by
  interval_cases r <;> decide

theorem natDigits_isDigit (n : Nat) : ∀ c ∈ natDigits n, c.isDigit = true := by
  induction n using Nat.strong_induction_on with
  | _ n ih =>
    match n with
    | 0 => intro c hc; simp [natDigits] at hc
    | m + 1 =>
      intro c hc
      rw [natDigits] at hc
      rcases List.mem_append.mp hc with h1 | h2
      · exact ih ((m + 1) / 10) (Nat.div_lt_self (Nat.succ_pos m) (by decide)) c h1
      · rcases List.mem_singleton.mp h2 with rfl
        exact digitChar_isDigit _ (Nat.mod_lt _ (by decide))

theorem strtoulGo_append (xs ys : Bytes) (acc : Nat)
    (h : ∀ c ∈ xs, c.isDigit = true) :
    strtoulGo (xs ++ ys) acc = strtoulGo ys (strtoulGo xs acc) := by
  induction xs generalizing acc with
  | nil => rfl
  | cons c cs ih =>
    have hc : c.isDigit = true := h c (List.mem_cons_self c cs)
    simp only [List.cons_append, strtoulGo, hc, if_true]
    exact ih _ (fun d hd => h d (List.mem_cons_of_mem c hd))

theorem strtoulGo_natDigits (n : Nat) :
    ∀ acc, strtoulGo (natDigits n) acc = acc * 10 ^ (natDigits n).length + n := by
  induction n using Nat.strong_induction_on with
  | _ n ih =>
    match n with
    | 0 => intro acc; simp [natDigits, strtoulGo]
    | m + 1 =>
      intro acc
      have hdiv : (m + 1) / 10 < m + 1 := Nat.div_lt_self (Nat.succ_pos m) (by decide)
      have hmod : (m + 1) % 10 < 10 := Nat.mod_lt _ (by decide)
      rw [natDigits, strtoulGo_append _ _ _ (natDigits_isDigit _), ih _ hdiv]
      simp only [strtoulGo, digitChar_isDigit _ hmod, if_true,
        digitChar_toNat _ hmod, List.length_append, List.length_singleton]
      have : 48 + (m + 1) % 10 - 48 = (m + 1) % 10 := by omega
      rw [this]
      have hdm : 10 * ((m + 1) / 10) + (m + 1) % 10 = m + 1 :=
        Nat.div_add_mod (m + 1) 10
      ring_nf
      omega

theorem strtoulGo_zeros (k : Nat) : strtoulGo (List.replicate k '0') 0 = 0 := by
  induction k with
  | zero => rfl
  | succ k ih => simpa [List.replicate, strtoulGo] using ih

/-- Reading back a %08d-formatted record recovers the stored value. -/
theorem strtoulDec_pad8 (n : Nat) : strtoulDec (pad8 n) = n := by
  have hzd : ∀ c ∈ List.replicate (8 - (natDigits n).length) '0', c.isDigit = true := by
    intro c hc
    rcases List.eq_of_mem_replicate hc with rfl
    decide
  rw [strtoulDec, pad8, strtoulGo_append _ _ _ hzd, strtoulGo_zeros,
    strtoulGo_natDigits]
  simp

/-! ### GetFileNumber (gnss_tracker.ino lines 129-156)

The index record lives in INDEX_FILE_NAME; the storage cell is embedded as
`Option Bytes` — `none` models ReadChar returning ReadSize = 0 (file absent or
unreadable), `some content` models a successful read of `content`.

The code reads the record; if readable it parses it with strtoul, increments,
and removes the old record; otherwise it starts at 1.  It then rewrites the
record with snprintf "%08d" and `WriteChar` — whose return value the code
discards.  `writeOk` is the outcome of that final WriteChar (a failed write
leaves no record: the old one was already removed, or never existed). -/
def GetFileNumberW (writeOk : Bool) (st : Option Bytes) : Nat × Option Bytes :=
  let fileCount : Nat :=
    match st with
    | some content => strtoulDec content + 1
    | none => 1
  (fileCount, if writeOk then some (pad8 fileCount) else none)

/-- GetFileNumber with the index-file write succeeding. -/
def GetFileNumber (st : Option Bytes) : Nat × Option Bytes := GetFileNumberW true st

theorem GetFileNumber_none : GetFileNumber none = (1, some (pad8 1)) := rfl

theorem GetFileNumber_pad8 (v : Nat) :
    GetFileNumber (some (pad8 v)) = (v + 1, some (pad8 (v + 1))) := by
  simp [GetFileNumber, GetFileNumberW, strtoulDec_pad8]

/-! ### Session sequences (SetupPositioning calling GetFileNumber each boot) -/

/-- Index-file storage after n startup/shutdown cycles from storage `st`
(each startup runs GetFileNumber once, with its commit write succeeding). -/
def storageAfter (st : Option Bytes) : Nat → Option Bytes
  | 0 => st
  | n + 1 => storageAfter (GetFileNumber st).2 n

/-- Session index assigned at the (n+1)-st startup from initial storage `st`. -/
def indexAt (st : Option Bytes) (n : Nat) : Nat :=
  (GetFileNumber (storageAfter st n)).1

theorem indexAt_succ (st : Option Bytes) (n : Nat) :
    indexAt st (n + 1) = indexAt st n + 1 := by
  induction n generalizing st with
  | zero =>
    show (GetFileNumber (GetFileNumber st).2).1 = (GetFileNumber st).1 + 1
    cases st <;> simp [GetFileNumber, GetFileNumberW, strtoulDec_pad8]
  | succ n ih =>
    show indexAt (GetFileNumber st).2 (n + 1) = indexAt (GetFileNumber st).2 n + 1
    exact ih _

theorem indexAt_add (st : Option Bytes) (n : Nat) :
    indexAt st n = indexAt st 0 + n := by
  induction n with
  | zero => rfl
  | succ n ih => rw [indexAt_succ, ih]; omega

/-! ### The tracker loop (gnss_tracker.ino lines 260-351)

State held across iterations of `loop()`: the statics `PosFixflag`,
`pNmeaBuff` (NULL until first allocation) and `WriteCounter`, plus the session
file.  The session file name is fixed at setup from the GetFileNumber index;
we carry the index itself.  WriteChar on the session file (gnss_file.cpp, not
included under src/) is modelled from the spec: an append-mode open followed by
a write reporting the byte count actually written, the file gaining exactly
those bytes. -/

/-- Observable events of one loop() iteration: the overflow branch, the flush
with its requested snapshot and reported byte count, and whether Led_isError
was invoked with true. -/
structure LoopEvents where
  rejected : Bool
  flushed : Bool
  flushData : Bytes
  flushGot : Nat
  errorCalled : Bool
deriving DecidableEq

/-- An iteration that takes no observable action. -/
def noEvents : LoopEvents :=
  { rejected := false, flushed := false, flushData := [], flushGot := 0,
    errorCalled := false }

/-- Persistent state of loop(): PosFixflag, pNmeaBuff (none = NULL),
WriteCounter (a C int), the session index baked into FilenameTxt, and the
session file contents on storage. -/
structure TrackerState where
  posFixFlag : Bool
  buff : Option Bytes
  writeCounter : Int
  fileIdx : Nat
  file : Bytes
deriving DecidableEq

/-- Environment of one iteration: the Gnss.waitUpdate outcome, the NavData
fields the loop reads, the formatted NMEA line (empty on getNmeaGga error),
whether malloc succeeds if attempted, and the byte count WriteChar reports if
a flush happens. -/
structure LoopInput where
  hasUpdate : Bool
  posDataExist : Bool
  posFixMode : Nat
  nmea : Bytes
  allocOk : Bool
  writeGot : Nat
deriving DecidableEq

/-- Result of offering a sample to the buffer. -/
inductive AppendResult where
  | Appended
  | Rejected
deriving DecidableEq

/-- Lines 306-312: allocate pNmeaBuff on first use; malloc failure leaves it
NULL, success yields a cleared (empty) buffer. -/
def allocBuff (b : Option Bytes) (allocOk : Bool) : Option Bytes :=
  match b with
  | none => if allocOk then some [] else none
  | some b => some b

/-- Lines 314-323: strncat the line into pNmeaBuff when it fits
(strlen(pNmeaBuff) + NmeaString.length() < MEMORY_BUFFER_SIZE, one byte of the
capacity staying reserved for the NUL terminator), otherwise leave the buffer
untouched; a NULL buffer also lands in the no-capacity branch. -/
def appendSample : Option Bytes → Bytes → AppendResult × Option Bytes
  | some b, nmea =>
    if b.length + nmea.length < MEMORY_BUFFER_SIZE then
      (AppendResult.Appended, some (b ++ nmea))
    else
      (AppendResult.Rejected, some b)
  | none, _ => (AppendResult.Rejected, none)

/-- Modelled from the spec: WriteChar (gnss_file.cpp, not included under src/)
opens the session file in append mode (creating it if absent) and writes the
buffer, the file gaining the first `got` bytes it reports written; the file is
never truncated. -/
def writeCharAppend (file data : Bytes) (got : Nat) : Bytes := file ++ data.take got

/-- Lines 334-349: when WriteCounter has reached 0 and the buffer exists,
append it to the session file, call Led_isError(true) on a byte-count
mismatch, then unconditionally clear the buffer and reinstate WriteCounter. -/
def flushPhase (s : TrackerState) (ev : LoopEvents) (writeGot : Nat) :
    TrackerState × LoopEvents :=
  match s.buff with
  | some b =>
    if s.writeCounter ≤ 0 then
      ({ s with file := writeCharAppend s.file b writeGot,
                buff := some [],
                writeCounter := (NUMBER_OF_CACHE : Int) },
       { ev with flushed := true, flushData := b, flushGot := writeGot,
                 errorCalled := ev.errorCalled || (writeGot != b.length) })
    else (s, ev)
  | none => (s, ev)

/-- One iteration of loop().  On a waitUpdate timeout nothing runs.  Otherwise
the position-fix flag is refreshed, the NMEA line is buffered (allocating the
buffer on first use; an empty line is the getNmeaGga error case, a line that
does not fit raises the error call and forces WriteCounter to 0), and finally
the flush check runs. -/
def loopStep (s : TrackerState) (inp : LoopInput) : TrackerState × LoopEvents :=
  if inp.hasUpdate then
    let s1 := { s with posFixFlag := inp.posDataExist && (inp.posFixMode != 0) }
    if inp.nmea.length == 0 then
      flushPhase s1 { noEvents with errorCalled := true } inp.writeGot
    else
      match appendSample (allocBuff s1.buff inp.allocOk) inp.nmea with
      | (AppendResult.Appended, b1) =>
        flushPhase { s1 with buff := b1, writeCounter := s1.writeCounter - 1 }
          noEvents inp.writeGot
      | (AppendResult.Rejected, b1) =>
        flushPhase { s1 with buff := b1, writeCounter := 0 }
          { noEvents with rejected := true, errorCalled := true } inp.writeGot
  else (s, noEvents)

/-- Run loop() over a list of per-iteration environments, collecting events. -/
def runLoop (s : TrackerState) : List LoopInput → TrackerState × List LoopEvents
  | [] => (s, [])
  | inp :: rest =>
    let r := loopStep s inp
    let rest' := runLoop r.1 rest
    (rest'.1, r.2 :: rest'.2)

/-- State at the first entry of loop(): buffer unallocated, WriteCounter at
NUMBER_OF_CACHE, session file empty. -/
def initState (fileIdx : Nat) : TrackerState :=
  { posFixFlag := false, buff := none, writeCounter := (NUMBER_OF_CACHE : Int),
    fileIdx := fileIdx, file := [] }

/-- State right after a flush reset (buffer allocated and cleared,
WriteCounter reinstated); the other fields are arbitrary. -/
def resetState (pf : Bool) (idx : Nat) (fl : Bytes) : TrackerState :=
  { posFixFlag := pf, buff := some [], writeCounter := (NUMBER_OF_CACHE : Int),
    fileIdx := idx, file := fl }

/-! ### Characterization lemmas for one iteration -/

theorem flushPhase_fire (s : TrackerState) (ev : LoopEvents) (g : Nat) (b : Bytes)
    (hb : s.buff = some b) (hwc : s.writeCounter ≤ 0) :
    flushPhase s ev g =
      ({ s with file := s.file ++ b.take g, buff := some [],
                writeCounter := (NUMBER_OF_CACHE : Int) },
       { ev with flushed := true, flushData := b, flushGot := g,
                 errorCalled := ev.errorCalled || (g != b.length) }) := by
  simp [flushPhase, hb, hwc, writeCharAppend]

theorem flushPhase_skip_none (s : TrackerState) (ev : LoopEvents) (g : Nat)
    (hb : s.buff = none) : flushPhase s ev g = (s, ev) := by
  simp [flushPhase, hb]

theorem flushPhase_skip_pos (s : TrackerState) (ev : LoopEvents) (g : Nat) (b : Bytes)
    (hb : s.buff = some b) (hwc : 0 < s.writeCounter) : flushPhase s ev g = (s, ev) := by
  simp [flushPhase, hb, show ¬(s.writeCounter ≤ 0) by omega]

theorem loopStep_timeout (s : TrackerState) (inp : LoopInput)
    (h : inp.hasUpdate = false) : loopStep s inp = (s, noEvents) := by
  simp [loopStep, h]

theorem loopStep_nmeaErr (s : TrackerState) (inp : LoopInput)
    (hu : inp.hasUpdate = true) (hn : inp.nmea = []) :
    loopStep s inp =
      flushPhase { s with posFixFlag := inp.posDataExist && (inp.posFixMode != 0) }
        { noEvents with errorCalled := true } inp.writeGot := by
  simp [loopStep, hu, hn]

theorem loopStep_appended (s : TrackerState) (inp : LoopInput) (b : Bytes)
    (hu : inp.hasUpdate = true) (hn : inp.nmea ≠ [])
    (hb : allocBuff s.buff inp.allocOk = some b)
    (hfit : b.length + inp.nmea.length < MEMORY_BUFFER_SIZE) :
    loopStep s inp =
      flushPhase { s with posFixFlag := inp.posDataExist && (inp.posFixMode != 0),
                          buff := some (b ++ inp.nmea),
                          writeCounter := s.writeCounter - 1 }
        noEvents inp.writeGot := by
  have hlen : (inp.nmea.length == 0) = false := by
    simp [List.length_eq_zero, hn]
  simp [loopStep, hu, hlen, hb, appendSample, hfit]

theorem loopStep_rejected_some (s : TrackerState) (inp : LoopInput) (b : Bytes)
    (hu : inp.hasUpdate = true) (hn : inp.nmea ≠ [])
    (hb : allocBuff s.buff inp.allocOk = some b)
    (hfit : ¬ b.length + inp.nmea.length < MEMORY_BUFFER_SIZE) :
    loopStep s inp =
      flushPhase { s with posFixFlag := inp.posDataExist && (inp.posFixMode != 0),
                          buff := some b, writeCounter := 0 }
        { noEvents with rejected := true, errorCalled := true } inp.writeGot := by
  have hlen : (inp.nmea.length == 0) = false := by
    simp [List.length_eq_zero, hn]
  simp [loopStep, hu, hlen, hb, appendSample, hfit]

theorem loopStep_rejected_none (s : TrackerState) (inp : LoopInput)
    (hu : inp.hasUpdate = true) (hn : inp.nmea ≠ [])
    (hb : allocBuff s.buff inp.allocOk = none) :
    loopStep s inp =
      flushPhase { s with posFixFlag := inp.posDataExist && (inp.posFixMode != 0),
                          buff := none, writeCounter := 0 }
        { noEvents with rejected := true, errorCalled := true } inp.writeGot := by
  have hlen : (inp.nmea.length == 0) = false := by
    simp [List.length_eq_zero, hn]
  simp [loopStep, hu, hlen, hb, appendSample]

/-- Every non-timeout iteration is a buffering phase feeding one flushPhase
call whose incoming events have no flush recorded and whose intermediate state
keeps the session file and index. -/
theorem loopStep_shape (s : TrackerState) (inp : LoopInput) :
    loopStep s inp = (s, noEvents) ∨
    ∃ s1 ev, ev.flushed = false ∧ s1.file = s.file ∧ s1.fileIdx = s.fileIdx ∧
      loopStep s inp = flushPhase s1 ev inp.writeGot := by
  by_cases hu : inp.hasUpdate = true
  · by_cases hn : inp.nmea = []
    · refine Or.inr ⟨_, _, ?_, ?_, ?_, loopStep_nmeaErr s inp hu hn⟩ <;> rfl
    · cases hb : allocBuff s.buff inp.allocOk with
      | none =>
        refine Or.inr ⟨_, _, ?_, ?_, ?_, loopStep_rejected_none s inp hu hn hb⟩ <;> rfl
      | some b =>
        by_cases hfit : b.length + inp.nmea.length < MEMORY_BUFFER_SIZE
        · refine Or.inr ⟨_, _, ?_, ?_, ?_, loopStep_appended s inp b hu hn hb hfit⟩ <;> rfl
        · refine Or.inr ⟨_, _, ?_, ?_, ?_, loopStep_rejected_some s inp b hu hn hb hfit⟩ <;> rfl
  · exact Or.inl (loopStep_timeout s inp (by simpa using hu))

theorem flushPhase_fileIdx (s : TrackerState) (ev : LoopEvents) (g : Nat) :
    (flushPhase s ev g).1.fileIdx = s.fileIdx := by
  cases hb : s.buff with
  | none => simp [flushPhase, hb]
  | some b =>
    by_cases hwc : s.writeCounter ≤ 0
    · simp [flushPhase_fire s ev g b hb hwc]
    · simp [flushPhase_skip_pos s ev g b hb (by omega)]

/-- If a flushPhase call with no flush yet recorded reports a flush, the
buffer existed, the counter was due, and the outcome is fully determined:
snapshot written, buffer cleared, counter reinstated. -/
theorem flushPhase_flushed (s : TrackerState) (ev : LoopEvents) (g : Nat)
    (hev : ev.flushed = false)
    (hfl : (flushPhase s ev g).2.flushed = true) :
    ∃ b, s.buff = some b ∧ s.writeCounter ≤ 0 ∧
      flushPhase s ev g =
        ({ s with file := s.file ++ b.take g, buff := some [],
                  writeCounter := (NUMBER_OF_CACHE : Int) },
         { ev with flushed := true, flushData := b, flushGot := g,
                   errorCalled := ev.errorCalled || (g != b.length) }) := by
  cases hb : s.buff with
  | none => rw [flushPhase_skip_none s ev g hb] at hfl; rw [hev] at hfl; exact absurd hfl (by simp)
  | some b =>
    by_cases hwc : s.writeCounter ≤ 0
    · exact ⟨b, rfl, hwc, flushPhase_fire s ev g b hb hwc⟩
    · rw [flushPhase_skip_pos s ev g b hb (by omega)] at hfl
      rw [hev] at hfl; exact absurd hfl (by simp)

theorem flushPhase_rejected (s : TrackerState) (ev : LoopEvents) (g : Nat) :
    (flushPhase s ev g).2.rejected = ev.rejected := by
  cases hb : s.buff with
  | none => simp [flushPhase, hb]
  | some b =>
    simp only [flushPhase, hb]
    split <;> rfl

/-- C10: an iteration whose bounded wait for a fix times out leaves the whole
modelled state (buffer, counter, session file and index, position-fix flag)
untouched and performs no flush and no error signalling. -/
theorem timeoutFrame (s : TrackerState) (inp : LoopInput)
    (h : inp.hasUpdate = false) : loopStep s inp = (s, noEvents) :=
  loopStep_timeout s inp h

theorem timeoutFrame_witness :
    loopStep (initState 1)
      { hasUpdate := false, posDataExist := false, posFixMode := 0,
        nmea := [], allocOk := true, writeGot := 0 } = (initState 1, noEvents) :=
  timeoutFrame _ _ rfl

/-- C2: a sample is appended to the buffer exactly when
used + len(sample) < MEMORY_BUFFER_SIZE (one byte of the declared capacity
stays reserved for the NUL terminator); otherwise the append is Rejected and
the buffer is byte-for-byte unchanged — no partial write. -/
theorem appendNoPartial (b nmea : Bytes) :
    (b.length + nmea.length < MEMORY_BUFFER_SIZE →
      appendSample (some b) nmea = (AppendResult.Appended, some (b ++ nmea))) ∧
    (MEMORY_BUFFER_SIZE ≤ b.length + nmea.length →
      appendSample (some b) nmea = (AppendResult.Rejected, some b)) := by
  constructor
  · intro h; simp [appendSample, h]
  · intro h; simp [appendSample, show ¬ b.length + nmea.length < MEMORY_BUFFER_SIZE by omega]

set_option maxRecDepth 10000 in
theorem appendNoPartial_witness :
    appendSample (some ['a']) ['b'] = (AppendResult.Appended, some ['a', 'b']) ∧
    appendSample (some []) (List.replicate 1536 'z') = (AppendResult.Rejected, some []) :=
  ⟨(appendNoPartial ['a'] ['b']).1 (by decide),
   (appendNoPartial [] (List.replicate 1536 'z')).2 (by decide)⟩

/-- C7: when an append is Rejected on overflow while the buffer exists, the
iteration calls the error indicator, forces the flush in the same iteration,
flushes exactly the bytes that were buffered before the rejected append (the
offending sample is lost: the cleared buffer no longer holds it and the file
only gains prior bytes). -/
theorem overflowForcesFlush (s : TrackerState) (inp : LoopInput) (b : Bytes)
    (hb : s.buff = some b)
    (hrej : (loopStep s inp).2.rejected = true) :
    (loopStep s inp).2.errorCalled = true ∧
    (loopStep s inp).2.flushed = true ∧
    (loopStep s inp).2.flushData = b ∧
    (loopStep s inp).1.buff = some [] ∧
    (loopStep s inp).1.file = s.file ++ b.take inp.writeGot := by
  by_cases hu : inp.hasUpdate = true
  · by_cases hn : inp.nmea = []
    · rw [loopStep_nmeaErr s inp hu hn, flushPhase_rejected] at hrej
      exact absurd hrej (by simp [noEvents])
    · have hb' : allocBuff s.buff inp.allocOk = some b := by rw [hb]; rfl
      by_cases hfit : b.length + inp.nmea.length < MEMORY_BUFFER_SIZE
      · rw [loopStep_appended s inp b hu hn hb' hfit, flushPhase_rejected] at hrej
        exact absurd hrej (by simp [noEvents])
      · rw [loopStep_rejected_some s inp b hu hn hb' hfit,
          flushPhase_fire _ _ _ b rfl (le_refl 0)]
        simp [noEvents]
  · rw [loopStep_timeout s inp (by simpa using hu)] at hrej
    exact absurd hrej (by simp [noEvents])

def overflowState : TrackerState :=
  { posFixFlag := false, buff := some (List.replicate 6 'x'), writeCounter := 5,
    fileIdx := 1, file := [] }

def overflowInput : LoopInput :=
  { hasUpdate := true, posDataExist := true, posFixMode := 1,
    nmea := List.replicate 1530 'y', allocOk := true, writeGot := 6 }

set_option maxRecDepth 10000 in
theorem overflowForcesFlush_witness :
    (loopStep overflowState overflowInput).2.errorCalled = true ∧
    (loopStep overflowState overflowInput).2.flushed = true ∧
    (loopStep overflowState overflowInput).2.flushData = List.replicate 6 'x' ∧
    (loopStep overflowState overflowInput).1.buff = some [] ∧
    (loopStep overflowState overflowInput).1.file =
      overflowState.file ++ (List.replicate 6 'x').take overflowInput.writeGot :=
  overflowForcesFlush overflowState overflowInput (List.replicate 6 'x')
    (by decide) (by decide)

/-- C1 (amended): on a short write (storage reporting fewer bytes written
than requested) the error indicator is called, but the buffer IS reset all
the same — contents cleared and WriteCounter reinstated — so the unflushed
bytes are lost rather than re-sent on the next cycle. -/
theorem shortWriteStillResets (s : TrackerState) (inp : LoopInput)
    (hfl : (loopStep s inp).2.flushed = true)
    (hshort : (loopStep s inp).2.flushGot ≠ (loopStep s inp).2.flushData.length) :
    (loopStep s inp).2.errorCalled = true ∧
    (loopStep s inp).1.buff = some [] ∧
    (loopStep s inp).1.writeCounter = (NUMBER_OF_CACHE : Int) := by
  rcases loopStep_shape s inp with heq | ⟨s1, ev, hev, hfile, hidx, heq⟩
  · rw [heq] at hfl; exact absurd hfl (by simp [noEvents])
  · rw [heq] at hfl hshort ⊢
    obtain ⟨b, hb, hwc, hfire⟩ := flushPhase_flushed s1 ev inp.writeGot hev hfl
    rw [hfire] at hshort ⊢
    simp only at hshort
    refine ⟨?_, rfl, rfl⟩
    simp [hshort]

def shortWriteState : TrackerState :=
  { posFixFlag := false, buff := some (List.replicate 110 'A'), writeCounter := 1,
    fileIdx := 1, file := [] }

def shortWriteInput : LoopInput :=
  { hasUpdate := true, posDataExist := true, posFixMode := 1,
    nmea := List.replicate 10 'B', allocOk := true, writeGot := 90 }

/-- C1 counterexample: a flush of 120 buffered bytes for which storage reports
90 bytes written nevertheless ends the iteration with the buffer cleared and
WriteCounter reinstated — the sample buffer IS reset on this path, so the
unwritten 30 bytes are not re-sent next cycle. -/
theorem shortWriteClaimFalse :
    (loopStep shortWriteState shortWriteInput).2.flushed = true ∧
    (loopStep shortWriteState shortWriteInput).2.flushData.length = 120 ∧
    (loopStep shortWriteState shortWriteInput).2.flushGot = 90 ∧
    (loopStep shortWriteState shortWriteInput).1.buff = some [] ∧
    (loopStep shortWriteState shortWriteInput).1.writeCounter = (NUMBER_OF_CACHE : Int) := by
  decide

theorem shortWriteStillResets_witness :
    (loopStep shortWriteState shortWriteInput).2.errorCalled = true ∧
    (loopStep shortWriteState shortWriteInput).1.buff = some [] ∧
    (loopStep shortWriteState shortWriteInput).1.writeCounter = (NUMBER_OF_CACHE : Int) :=
  shortWriteStillResets shortWriteState shortWriteInput (by decide) (by decide)

theorem loopStep_file (s : TrackerState) (inp : LoopInput) :
    (loopStep s inp).1.file =
      s.file ++ (if (loopStep s inp).2.flushed = true then
        (loopStep s inp).2.flushData.take (loopStep s inp).2.flushGot else []) := by
  rcases loopStep_shape s inp with heq | ⟨s1, ev, hev, hfile, hidx, heq⟩
  · rw [heq]; simp [noEvents]
  · rw [heq]
    cases hb : s1.buff with
    | none => rw [flushPhase_skip_none _ _ _ hb]; simp [hev, hfile]
    | some b =>
      by_cases hwc : s1.writeCounter ≤ 0
      · rw [flushPhase_fire _ _ _ b hb hwc]; simp [hfile]
      · rw [flushPhase_skip_pos _ _ _ b hb (by omega)]; simp [hev, hfile]

/-- C3: the session file is only ever appended to (never truncated or
overwritten), and after any run whose flushes all succeeded (reported byte
count equal to the requested snapshot length) the file holds the initial
contents followed by the concatenation, in call order, of the snapshots passed
to the successful flushes. -/
theorem flushDurability :
    (∀ (s : TrackerState) (inp : LoopInput), ∃ t, (loopStep s inp).1.file = s.file ++ t) ∧
    (∀ (s : TrackerState) (L : List LoopInput),
      (∀ e ∈ (runLoop s L).2, e.flushed = true → e.flushGot = e.flushData.length) →
      (runLoop s L).1.file =
        s.file ++
          (((runLoop s L).2.filter fun e => e.flushed).map fun e => e.flushData).flatten) := by
  constructor
  · intro s inp; exact ⟨_, loopStep_file s inp⟩
  · intro s L
    induction L generalizing s with
    | nil => intro _; simp [runLoop]
    | cons inp rest ih =>
      intro h
      simp only [runLoop] at h ⊢
      have hstep := h (loopStep s inp).2 (by simp)
      have hrest : ∀ e ∈ (runLoop (loopStep s inp).1 rest).2,
          e.flushed = true → e.flushGot = e.flushData.length :=
        fun e he => h e (by simp [he])
      have ihr := ih (loopStep s inp).1 hrest
      rw [ihr, loopStep_file s inp]
      by_cases hf : (loopStep s inp).2.flushed = true
      · have htake : (loopStep s inp).2.flushData.take (loopStep s inp).2.flushGot =
            (loopStep s inp).2.flushData := by
          rw [hstep hf]; exact List.take_length _
        simp [hf, htake, List.append_assoc]
      · simp [hf]

def durabilityState : TrackerState :=
  { posFixFlag := false, buff := some ['x'], writeCounter := 1,
    fileIdx := 1, file := ['0'] }

def durabilityRun : List LoopInput :=
  [{ hasUpdate := true, posDataExist := true, posFixMode := 1,
     nmea := ['y'], allocOk := true, writeGot := 2 },
   { hasUpdate := true, posDataExist := true, posFixMode := 1,
     nmea := ['z'], allocOk := true, writeGot := 0 }]

theorem flushDurability_witness :
    (runLoop durabilityState durabilityRun).1.file =
      durabilityState.file ++
        (((runLoop durabilityState durabilityRun).2.filter fun e => e.flushed).map
          fun e => e.flushData).flatten :=
  flushDurability.2 durabilityState durabilityRun (by decide)

/-- Auxiliary induction for the threshold claim: starting from a state whose
buffer is allocated, whose WriteCounter w lies in [1, NUMBER_OF_CACHE] and
whose fill level is bounded by the appends already counted, a run of at most
w update iterations with non-empty lines of at most 127 bytes flushes exactly
once if it is w iterations long and never otherwise. -/
theorem thresholdAux (L : List LoopInput)
    (hgood : ∀ inp ∈ L, inp.hasUpdate = true ∧ inp.nmea ≠ [] ∧
      inp.nmea.length ≤ NMEA_BUFFER_SIZE - 1) :
    ∀ (s : TrackerState) (b : Bytes), s.buff = some b →
      (1 : Int) ≤ s.writeCounter → s.writeCounter ≤ (NUMBER_OF_CACHE : Int) →
      b.length ≤ (NUMBER_OF_CACHE - s.writeCounter.toNat) * (NMEA_BUFFER_SIZE - 1) →
      (L.length : Int) ≤ s.writeCounter →
      ((runLoop s L).2.countP fun e => e.flushed) =
        if (L.length : Int) = s.writeCounter then 1 else 0 := by
  induction L with
  | nil =>
    intro s b hb h1 h2 hblen hL
    have hne : ¬ ((0 : Int) = s.writeCounter) := by omega
    simp [runLoop, hne]
  | cons inp rest ih =>
    intro s b hb h1 h2 hblen hL
    obtain ⟨hu, hn, hle⟩ := hgood inp (List.mem_cons_self inp rest)
    have hgood' : ∀ i ∈ rest, i.hasUpdate = true ∧ i.nmea ≠ [] ∧
        i.nmea.length ≤ NMEA_BUFFER_SIZE - 1 :=
      fun i hi => hgood i (List.mem_cons_of_mem inp hi)
    have hb' : allocBuff s.buff inp.allocOk = some b := by rw [hb]; rfl
    have hNC : NUMBER_OF_CACHE = 12 := rfl
    have hNB : NMEA_BUFFER_SIZE = 128 := rfl
    have hMB : MEMORY_BUFFER_SIZE = 1536 := rfl
    have hfit : b.length + inp.nmea.length < MEMORY_BUFFER_SIZE := by
      rw [hMB]; rw [hNC, hNB] at hblen; rw [hNB] at hle; rw [hNC] at h2
      omega
    have hstep := loopStep_appended s inp b hu hn hb' hfit
    have hLcast : ((inp :: rest).length : Int) = (rest.length : Int) + 1 := by
      rw [List.length_cons]; push_cast; ring
    by_cases hwc1 : s.writeCounter = 1
    · have hrest : rest = [] := by
        cases rest with
        | nil => rfl
        | cons a t =>
          exfalso
          rw [hLcast] at hL
          have ht : ((a :: t).length : Int) = (t.length : Int) + 1 := by
            rw [List.length_cons]; push_cast; ring
          rw [ht] at hL
          omega
      subst hrest
      have hfire := flushPhase_fire
        { s with posFixFlag := inp.posDataExist && (inp.posFixMode != 0),
                 buff := some (b ++ inp.nmea), writeCounter := s.writeCounter - 1 }
        noEvents inp.writeGot (b ++ inp.nmea) rfl
        (by show s.writeCounter - 1 ≤ 0; omega)
      rw [hfire] at hstep
      simp only [runLoop, List.countP_cons, List.countP_nil, hstep]
      have hcond : (([inp].length : Nat) : Int) = s.writeCounter := by
        simp [hwc1]
      rw [if_pos hcond]
      simp
    · have hwc2 : (2 : Int) ≤ s.writeCounter := by omega
      have hskip := flushPhase_skip_pos
        { s with posFixFlag := inp.posDataExist && (inp.posFixMode != 0),
                 buff := some (b ++ inp.nmea), writeCounter := s.writeCounter - 1 }
        noEvents inp.writeGot (b ++ inp.nmea) rfl
        (by show (0 : Int) < s.writeCounter - 1; omega)
      rw [hskip] at hstep
      have ihr := ih hgood'
        { s with posFixFlag := inp.posDataExist && (inp.posFixMode != 0),
                 buff := some (b ++ inp.nmea), writeCounter := s.writeCounter - 1 }
        (b ++ inp.nmea) rfl
        (by show (1 : Int) ≤ s.writeCounter - 1; omega)
        (by show s.writeCounter - 1 ≤ (NUMBER_OF_CACHE : Int); omega)
        (by show (b ++ inp.nmea).length ≤
              (NUMBER_OF_CACHE - (s.writeCounter - 1).toNat) * (NMEA_BUFFER_SIZE - 1)
            rw [List.length_append, hNC, hNB]
            rw [hNC, hNB] at hblen
            rw [hNB] at hle
            omega)
        (by show (rest.length : Int) ≤ s.writeCounter - 1
            rw [hLcast] at hL
            omega)
      dsimp only at ihr
      simp only [runLoop, hstep, List.countP_cons]
      rw [ihr]
      have hnv : (if noEvents.flushed = true then (1 : Nat) else 0) = 0 := rfl
      rw [hnv, Nat.add_zero]
      by_cases hc : ((rest.length : Int) = s.writeCounter - 1)
      · rw [if_pos hc, if_pos (by rw [hLcast]; omega)]
      · rw [if_neg hc, if_neg (by rw [hLcast]; omega)]

/-- C4: with the threshold NUMBER_OF_CACHE = 12 (data-write interval divided
by positioning interval) and no overflow (every line non-empty and at most 127
bytes, so every append succeeds), a run from the post-reset state flushes
exactly once when it is 12 successful appends long and never on a shorter
run — the trigger counts successful appends, independent of byte fill. -/
theorem thresholdTriggersExactly (pf : Bool) (idx : Nat) (fl : Bytes)
    (L : List LoopInput)
    (hgood : ∀ inp ∈ L, inp.hasUpdate = true ∧ inp.nmea ≠ [] ∧
      inp.nmea.length ≤ NMEA_BUFFER_SIZE - 1)
    (hlen : L.length ≤ NUMBER_OF_CACHE) :
    ((runLoop (resetState pf idx fl) L).2.countP fun e => e.flushed) =
      if L.length = NUMBER_OF_CACHE then 1 else 0 := by
  have h := thresholdAux L hgood (resetState pf idx fl) [] rfl
    (by show (1 : Int) ≤ ((NUMBER_OF_CACHE : Nat) : Int); decide)
    (by show ((NUMBER_OF_CACHE : Nat) : Int) ≤ ((NUMBER_OF_CACHE : Nat) : Int)
        exact le_refl _)
    (by show ([] : Bytes).length ≤
          (NUMBER_OF_CACHE - ((NUMBER_OF_CACHE : Nat) : Int).toNat) * (NMEA_BUFFER_SIZE - 1)
        simp)
    (by show (L.length : Int) ≤ ((NUMBER_OF_CACHE : Nat) : Int); exact_mod_cast hlen)
  rw [h]
  have hwc : (resetState pf idx fl).writeCounter = ((NUMBER_OF_CACHE : Nat) : Int) := rfl
  rw [hwc]
  by_cases hc : L.length = NUMBER_OF_CACHE
  · rw [if_pos (by exact_mod_cast hc), if_pos hc]
  · rw [if_neg (fun hx => hc (by exact_mod_cast hx)), if_neg hc]

def thresholdInput : LoopInput :=
  { hasUpdate := true, posDataExist := true, posFixMode := 1,
    nmea := List.replicate 10 'G', allocOk := true, writeGot := 120 }

set_option maxRecDepth 10000 in
theorem thresholdTriggersExactly_witness :
    ((runLoop (resetState false 1 []) (List.replicate NUMBER_OF_CACHE thresholdInput)).2.countP
      fun e => e.flushed) = 1 := by
  have h := thresholdTriggersExactly false 1 [] (List.replicate NUMBER_OF_CACHE thresholdInput)
    (by decide) (by decide)
  simpa using h

/-- Loop invariant ruling the overflow branch out: either the buffer is still
unallocated with the counter at its initial value, or the counter sits in
[1, 12] and the fill level is bounded by 127 bytes per append already
counted. -/
def Inv (s : TrackerState) : Prop :=
  match s.buff with
  | none => s.writeCounter = (NUMBER_OF_CACHE : Int)
  | some b => 1 ≤ s.writeCounter ∧ s.writeCounter ≤ (NUMBER_OF_CACHE : Int) ∧
      b.length ≤ (NUMBER_OF_CACHE - s.writeCounter.toNat) * (NMEA_BUFFER_SIZE - 1)

theorem Inv_mk_none (s' : TrackerState) (hb : s'.buff = none)
    (hwc : s'.writeCounter = ((NUMBER_OF_CACHE : Nat) : Int)) : Inv s' := by
  unfold Inv; rw [hb]; exact hwc

theorem Inv_mk_some (s' : TrackerState) (b : Bytes) (hb : s'.buff = some b)
    (h : 1 ≤ s'.writeCounter ∧ s'.writeCounter ≤ ((NUMBER_OF_CACHE : Nat) : Int) ∧
      b.length ≤ (NUMBER_OF_CACHE - s'.writeCounter.toNat) * (NMEA_BUFFER_SIZE - 1)) :
    Inv s' := by
  unfold Inv; rw [hb]; exact h

theorem Inv_elim_none (s' : TrackerState) (hb : s'.buff = none) (h : Inv s') :
    s'.writeCounter = ((NUMBER_OF_CACHE : Nat) : Int) := by
  unfold Inv at h; rw [hb] at h; exact h

theorem Inv_elim_some (s' : TrackerState) (b : Bytes) (hb : s'.buff = some b)
    (h : Inv s') :
    1 ≤ s'.writeCounter ∧ s'.writeCounter ≤ ((NUMBER_OF_CACHE : Nat) : Int) ∧
      b.length ≤ (NUMBER_OF_CACHE - s'.writeCounter.toNat) * (NMEA_BUFFER_SIZE - 1) := by
  unfold Inv at h; rw [hb] at h; exact h

theorem invStep (s : TrackerState) (inp : LoopInput)
    (hInv : Inv s) (hlen : inp.nmea.length ≤ NMEA_BUFFER_SIZE - 1)
    (halloc : inp.allocOk = true) :
    Inv (loopStep s inp).1 ∧ (loopStep s inp).2.rejected = false := by
  have hNC : NUMBER_OF_CACHE = 12 := rfl
  have hNB : NMEA_BUFFER_SIZE = 128 := rfl
  have hMB : MEMORY_BUFFER_SIZE = 1536 := rfl
  by_cases hu : inp.hasUpdate = true
  case neg => rw [loopStep_timeout s inp (by simpa using hu)]; exact ⟨hInv, rfl⟩
  case pos =>
  cases hb : s.buff with
  | none =>
    have hwc := Inv_elim_none s hb hInv
    by_cases hn : inp.nmea = []
    · rw [loopStep_nmeaErr s inp hu hn]
      rw [flushPhase_skip_none _ _ _ (by simpa using hb)]
      exact ⟨Inv_mk_none _ (by simpa using hb) hwc, rfl⟩
    · have hb' : allocBuff s.buff inp.allocOk = some [] := by
        rw [hb]; simp [allocBuff, halloc]
      have hfit : ([] : Bytes).length + inp.nmea.length < MEMORY_BUFFER_SIZE := by
        rw [hMB]; rw [hNB] at hlen; simp; omega
      rw [loopStep_appended s inp [] hu hn hb' hfit]
      rw [flushPhase_skip_pos _ _ _ ([] ++ inp.nmea) rfl
        (by show (0 : Int) < s.writeCounter - 1; rw [hwc, hNC]; decide)]
      refine ⟨Inv_mk_some _ ([] ++ inp.nmea) rfl ⟨?_, ?_, ?_⟩, rfl⟩
      · show (1 : Int) ≤ s.writeCounter - 1
        rw [hwc, hNC]; decide
      · show s.writeCounter - 1 ≤ ((NUMBER_OF_CACHE : Nat) : Int)
        rw [hwc]; omega
      · show ([] ++ inp.nmea).length ≤
          (NUMBER_OF_CACHE - (s.writeCounter - 1).toNat) * (NMEA_BUFFER_SIZE - 1)
        rw [hwc, hNC, hNB]
        rw [hNB] at hlen
        simp only [List.nil_append]
        omega
  | some b =>
    obtain ⟨h1, h2, hblen⟩ := Inv_elim_some s b hb hInv
    by_cases hn : inp.nmea = []
    · rw [loopStep_nmeaErr s inp hu hn]
      rw [flushPhase_skip_pos _ _ _ b (by simpa using hb)
        (by show (0 : Int) < s.writeCounter; omega)]
      exact ⟨Inv_mk_some _ b (by simpa using hb) ⟨h1, h2, hblen⟩, rfl⟩
    · have hb' : allocBuff s.buff inp.allocOk = some b := by rw [hb]; rfl
      have hfit : b.length + inp.nmea.length < MEMORY_BUFFER_SIZE := by
        rw [hMB]; rw [hNC, hNB] at hblen; rw [hNB] at hlen; rw [hNC] at h2
        omega
      rw [loopStep_appended s inp b hu hn hb' hfit]
      by_cases hwc1 : s.writeCounter = 1
      · rw [flushPhase_fire _ _ _ (b ++ inp.nmea) rfl
          (by show s.writeCounter - 1 ≤ 0; omega)]
        refine ⟨Inv_mk_some _ [] rfl ⟨?_, ?_, ?_⟩, rfl⟩
        · show (1 : Int) ≤ ((NUMBER_OF_CACHE : Nat) : Int)
          rw [hNC]; decide
        · exact le_refl _
        · show ([] : Bytes).length ≤
            (NUMBER_OF_CACHE - ((NUMBER_OF_CACHE : Nat) : Int).toNat) * (NMEA_BUFFER_SIZE - 1)
          simp
      · rw [flushPhase_skip_pos _ _ _ (b ++ inp.nmea) rfl
          (by show (0 : Int) < s.writeCounter - 1; omega)]
        refine ⟨Inv_mk_some _ (b ++ inp.nmea) rfl ⟨?_, ?_, ?_⟩, rfl⟩
        · show (1 : Int) ≤ s.writeCounter - 1
          omega
        · show s.writeCounter - 1 ≤ ((NUMBER_OF_CACHE : Nat) : Int)
          omega
        · show (b ++ inp.nmea).length ≤
            (NUMBER_OF_CACHE - (s.writeCounter - 1).toNat) * (NMEA_BUFFER_SIZE - 1)
          rw [List.length_append, hNC, hNB]
          rw [hNC, hNB] at hblen
          rw [hNB] at hlen
          rw [hNC] at h2
          omega

/-- C9: if every formatted line is at most NMEA_BUFFER_SIZE - 1 = 127 bytes
(and buffer allocation succeeds), the overflow branch is unreachable in any
run from the initial state: no iteration ever takes the Rejected path, i.e.
every attempted append satisfies used + len < MEMORY_BUFFER_SIZE. -/
theorem overflowUnreachable (idx : Nat) (L : List LoopInput)
    (h : ∀ inp ∈ L, inp.nmea.length ≤ NMEA_BUFFER_SIZE - 1 ∧ inp.allocOk = true) :
    ∀ e ∈ (runLoop (initState idx) L).2, e.rejected = false := by
  have haux : ∀ (M : List LoopInput),
      (∀ inp ∈ M, inp.nmea.length ≤ NMEA_BUFFER_SIZE - 1 ∧ inp.allocOk = true) →
      ∀ s, Inv s → ∀ e ∈ (runLoop s M).2, e.rejected = false := by
    intro M
    induction M with
    | nil => intro _ s _ e he; simp [runLoop] at he
    | cons inp rest ih =>
      intro hg s hInv e he
      obtain ⟨hInv', hrej⟩ := invStep s inp hInv
        (hg inp (List.mem_cons_self inp rest)).1 (hg inp (List.mem_cons_self inp rest)).2
      simp only [runLoop] at he
      rcases List.mem_cons.mp he with rfl | hmem
      · exact hrej
      · exact ih (fun i hi => hg i (List.mem_cons_of_mem inp hi)) _ hInv' e hmem
  exact haux L h (initState idx) (by show (NUMBER_OF_CACHE : Int) = (NUMBER_OF_CACHE : Int); rfl)

def overflowFreeInput : LoopInput :=
  { hasUpdate := true, posDataExist := true, posFixMode := 1,
    nmea := List.replicate 127 'N', allocOk := true, writeGot := 1524 }

set_option maxRecDepth 100000 in
theorem overflowUnreachable_witness :
    ((runLoop (initState 1) (List.replicate 13 overflowFreeInput)).2.countP
      fun e => e.rejected) = 0 := by
  rw [List.countP_eq_zero]
  intro e he
  have h := overflowUnreachable 1 (List.replicate 13 overflowFreeInput) (by decide) e he
  simp [h]

/-- C5 (amended): GetFileNumber returns 1 when the index record is absent or
unreadable; with a record holding %08d-encoded value v it returns v + 1; each
startup commits exactly the index it returned, so a fresh startup after a
startup that committed value c reads c back and returns c + 1 — Scenario C's
fresh readNext after commit(2) therefore returns 3, not 2, while the run
absent → 1, commit 1, fresh readNext → 2 is what the code produces. -/
theorem readNextSemantics :
    (GetFileNumber none).1 = 1 ∧
    (∀ v : Nat, (GetFileNumber (some (pad8 v))).1 = v + 1) ∧
    (∀ st : Option Bytes, (GetFileNumber st).2 = some (pad8 (GetFileNumber st).1)) ∧
    (∀ st : Option Bytes, (GetFileNumber (GetFileNumber st).2).1 = (GetFileNumber st).1 + 1) := by
  refine ⟨rfl, ?_, ?_, ?_⟩
  · intro v; simp [GetFileNumber, GetFileNumberW, strtoulDec_pad8]
  · intro st; cases st <;> rfl
  · intro st; cases st <;> simp [GetFileNumber, GetFileNumberW, strtoulDec_pad8]

/-- C5 counterexample: with the committed record holding value 2 (the result
of commit(2)), a fresh GetFileNumber returns 3, not the 2 that Scenario C
asserts for the fresh readNext. -/
theorem readNextScenarioCFalse :
    (GetFileNumber (some (pad8 2))).1 = 3 ∧ ¬ (GetFileNumber (some (pad8 2))).1 = 2 := by
  have h : (GetFileNumber (some (pad8 2))).1 = 3 := by
    simp [GetFileNumber, GetFileNumberW, strtoulDec_pad8]
  exact ⟨h, by omega⟩

/-- C6: across any sequence of startups whose counter commits succeed, the
session index assigned at a later startup is strictly greater than at any
earlier one, and the loop body never changes the session file index once
assigned. -/
theorem sessionIndexMonotone :
    (∀ (st : Option Bytes) (m n : Nat), m < n → indexAt st m < indexAt st n) ∧
    (∀ (s : TrackerState) (inp : LoopInput), (loopStep s inp).1.fileIdx = s.fileIdx) := by
  constructor
  · intro st m n hmn
    rw [indexAt_add st m, indexAt_add st n]
    omega
  · intro s inp
    rcases loopStep_shape s inp with heq | ⟨s1, ev, hev, hfile, hidx, heq⟩
    · rw [heq]
    · rw [heq, flushPhase_fileIdx]; exact hidx

theorem sessionIndexMonotone_witness :
    indexAt none 0 < indexAt none 1 :=
  sessionIndexMonotone.1 none 0 1 (by decide)

/-- C8 (amended): a read failure of the index record makes GetFileNumber fall
back to the first-session value 1, but a failure of the commit write of the
incremented value is NOT reported: GetFileNumber returns exactly the same
index whether the final WriteChar succeeded or failed, and no status reaches
its caller. -/
theorem commitFailureInvisible :
    (∀ st : Option Bytes, (GetFileNumberW false st).1 = (GetFileNumberW true st).1) ∧
    (∀ w : Bool, (GetFileNumberW w none).1 = 1) := by
  constructor
  · intro st; cases st <;> rfl
  · intro w; rfl

/-- C8 counterexample: with the record holding 1, a failed commit write
(leaving no record on storage) still makes GetFileNumber return 2, exactly as
on success — the write failure is invisible to the caller, which receives only
the count. -/
theorem commitFailureClaimFalse :
    (GetFileNumberW false (some (pad8 1))).2 = none ∧
    (GetFileNumberW false (some (pad8 1))).1 = (GetFileNumberW true (some (pad8 1))).1 :=
  ⟨rfl, rfl⟩

end GnssTracker
